import Mathlib

/-!
Verification of the Hedera Rust SDK client library sources against their
natural-language specification.  The Rust definitions are shallowly embedded:
pure functions become Lean functions, `u64`/`i64`/`i32` become `Nat`/`Int`
with explicit bounds or wrapping where the source casts, `panic!`-style
assertions and fallible functions become `Except`, and `&mut self` builder
methods become state-passing functions returning the updated value.
-/

namespace Hedera

/-- `u64::MAX + 1`: the first natural number that does not fit in a `u64`. -/
def U64_MAX_SUCC : Nat := 2 ^ 64

/-- Errors of the SDK (`error.rs`); only the constructors the embedded code
needs.  `basicParse` embeds `Error::basic_parse`. -/
inductive Error where
  | basicParse (description : String)
  | fromProtobuf (description : String)
deriving DecidableEq

/-! ## Entity identifiers (`entity_id.rs`) -/

/-- The ID of an entity on the Hedera network (`EntityId` in `entity_id.rs`). -/
structure EntityId where
  shard : Nat
  realm : Nat
  num : Nat
deriving DecidableEq

/-- The ASCII character of a decimal digit `d < 10`. -/
def digitChar (d : Nat) : Char := Char.ofNat (48 + d)

/-- Decimal formatting of an unsigned integer, as Rust's `Display` for `u64`
produces it (most significant digit first, no sign, no padding). -/
def natToDigits (n : Nat) : List Char :=
  if _h : n < 10 then [digitChar n]
  else natToDigits (n / 10) ++ [digitChar (n % 10)]
decreasing_by exact Nat.div_lt_self (by omega) (by omega)

/-- Accumulating digit parser: the core loop of Rust's `u64::from_str`,
rejecting any non-digit character. -/
def parseDigitsAux (acc : Nat) : List Char → Option Nat
  | [] => some acc
  | c :: cs => if c.isDigit then parseDigitsAux (acc * 10 + (c.toNat - 48)) cs else none

/-- The leading-sign step of Rust's integer `FromStr`: a single leading `+`
is accepted (and stripped) for unsigned integers. -/
def stripPlus : List Char → List Char
  | [] => []
  | c :: cs => if c = '+' then cs else c :: cs

/-- Rust's `u64::from_str`: optional leading `+`, at least one ASCII digit,
and the value must fit in a `u64` (overflow is an error). -/
def u64FromStr (cs : List Char) : Option Nat :=
  let ds := stripPlus cs
  if ds.isEmpty then none
  else
    match parseDigitsAux 0 ds with
    | some v => if v < U64_MAX_SUCC then some v else none
    | none => none

/-- Split a character list at the first occurrence of `sep`, when present. -/
def splitOnceAux (sep : Char) : List Char → Option (List Char × List Char)
  | [] => none
  | c :: cs =>
    if c = sep then some ([], cs)
    else
      match splitOnceAux sep cs with
      | some (l, r) => some (c :: l, r)
      | none => none

/-- Rust's `str::splitn(n, sep)`: at most `n` pieces, the last piece keeping
any remaining separators. -/
def splitN (sep : Char) : Nat → List Char → List (List Char)
  | 0, _ => []
  | 1, cs => [cs]
  | n + 2, cs =>
    match splitOnceAux sep cs with
    | some (l, r) => l :: splitN sep (n + 1) r
    | none => [cs]

/-- The `Iterator::try_collect` step of `EntityId::from_str`: parse every
component as a `u64`, failing if any component fails. -/
def collectU64 : List (List Char) → Option (List Nat)
  | [] => some []
  | cs :: rest =>
    match u64FromStr cs with
    | some v => (collectU64 rest).map (v :: ·)
    | none => none

/-- `impl From<u64> for EntityId`: a bare integer is `0.0.num`. -/
def EntityId.fromU64 (num : Nat) : EntityId :=
  { num := num, shard := 0, realm := 0 }

/-- `impl Display for EntityId`: `write!(f, "{}.{}.{}", shard, realm, num)`,
as a character list. -/
def EntityId.toChars (id : EntityId) : List Char :=
  natToDigits id.shard ++ ('.' :: (natToDigits id.realm ++ ('.' :: natToDigits id.num)))

/-- `impl Display for EntityId`, as a string. -/
def EntityId.format (id : EntityId) : String :=
  String.mk id.toChars

/-- `impl FromStr for EntityId`: split into at most 3 components on `.`,
parse each as `u64` (mapping the integer-parse error through
`Error::basic_parse`), then accept exactly one component (`0.0.num`
shorthand) or exactly three. -/
def EntityId.fromStrChars (cs : List Char) : Except Error EntityId :=
  match collectU64 (splitN '.' 3 cs) with
  | none => Except.error (Error.basicParse "invalid digit found in string")
  | some [num] => Except.ok (EntityId.fromU64 num)
  | some [shard, realm, num] => Except.ok { shard := shard, realm := realm, num := num }
  | some _ => Except.error (Error.basicParse "expecting <shard>.<realm>.<num> (ex. `0.0.1001`)")

/-- `impl FromStr for EntityId`, on strings. -/
def EntityId.fromStr (s : String) : Except Error EntityId :=
  EntityId.fromStrChars s.data

/-! ### Decimal formatting facts -/

theorem digitChar_isDigit (d : Nat) (h : d < 10) : (digitChar d).isDigit = true := by
  interval_cases d <;> decide

theorem digitChar_toNat (d : Nat) (h : d < 10) : (digitChar d).toNat = 48 + d := by
  interval_cases d <;> decide

theorem digitChar_ne_dot (d : Nat) (h : d < 10) : digitChar d ≠ '.' := by
  interval_cases d <;> decide

theorem digitChar_ne_plus (d : Nat) (h : d < 10) : digitChar d ≠ '+' := by
  interval_cases d <;> decide

theorem natToDigits_mem (n : Nat) : ∀ c ∈ natToDigits n, ∃ d, d < 10 ∧ c = digitChar d := by
  induction n using Nat.strong_induction_on with
  | _ n ih =>
    rw [natToDigits]
    split
    · intro c hc
      rw [List.mem_singleton] at hc
      exact ⟨n, by omega, hc⟩
    · intro c hc
      rcases List.mem_append.1 hc with h | h
      · exact ih (n / 10) (Nat.div_lt_self (by omega) (by omega)) c h
      · rw [List.mem_singleton] at h
        exact ⟨n % 10, Nat.mod_lt _ (by omega), h⟩

theorem natToDigits_ne_nil (n : Nat) : natToDigits n ≠ [] := by
  rw [natToDigits]
  split
  · simp
  · simp

theorem dot_not_mem_natToDigits (n : Nat) : '.' ∉ natToDigits n := by
  intro h
  obtain ⟨d, hd, hc⟩ := natToDigits_mem n _ h
  exact digitChar_ne_dot d hd hc.symm

theorem parseDigitsAux_append (xs ys : List Char) (acc : Nat) :
    parseDigitsAux acc (xs ++ ys) = (parseDigitsAux acc xs).bind (fun v => parseDigitsAux v ys) := by
  induction xs generalizing acc with
  | nil => rfl
  | cons c cs ih =>
    show parseDigitsAux acc (c :: (cs ++ ys)) = _
    rw [parseDigitsAux, parseDigitsAux]
    split
    · exact ih _
    · rfl

theorem parseDigitsAux_natToDigits (n : Nat) :
    ∀ acc, parseDigitsAux acc (natToDigits n) =
      some (acc * 10 ^ (natToDigits n).length + n) := by
  induction n using Nat.strong_induction_on with
  | _ n ih =>
    intro acc
    rw [natToDigits]
    split
    case isTrue h =>
      rw [parseDigitsAux, if_pos (digitChar_isDigit n h), digitChar_toNat n h, parseDigitsAux]
      simp
    case isFalse h =>
      rw [parseDigitsAux_append, ih (n / 10) (Nat.div_lt_self (by omega) (by omega)) acc]
      rw [Option.some_bind]
      rw [parseDigitsAux, if_pos (digitChar_isDigit _ (Nat.mod_lt _ (by omega))),
        digitChar_toNat _ (Nat.mod_lt _ (by omega)), parseDigitsAux]
      congr 1
      rw [List.length_append, List.length_singleton, Nat.pow_succ]
      have hdm : n / 10 * 10 + n % 10 = n := Nat.div_add_mod' n 10
      calc (acc * 10 ^ (natToDigits (n / 10)).length + n / 10) * 10 + (48 + n % 10 - 48)
          = acc * (10 ^ (natToDigits (n / 10)).length * 10) + (n / 10 * 10 + n % 10) := by ring_nf; omega
        _ = acc * (10 ^ (natToDigits (n / 10)).length * 10) + n := by rw [hdm]

theorem u64FromStr_natToDigits (n : Nat) (h : n < U64_MAX_SUCC) :
    u64FromStr (natToDigits n) = some n := by
  have hne := natToDigits_ne_nil n
  rcases hcs : natToDigits n with _ | ⟨c, cs⟩
  · exact absurd hcs hne
  · have hc : c ∈ natToDigits n := by rw [hcs]; exact List.mem_cons_self _ _
    obtain ⟨d, hd, hcd⟩ := natToDigits_mem n c hc
    have hplus : c ≠ '+' := hcd ▸ digitChar_ne_plus d hd
    have hstrip : stripPlus (c :: cs) = c :: cs := by
      rw [stripPlus, if_neg hplus]
    have hparse := parseDigitsAux_natToDigits n 0
    rw [hcs] at hparse
    rw [u64FromStr]
    simp only [hstrip, List.isEmpty_cons, if_false, Bool.false_eq_true]
    rw [hparse]
    simp only [Nat.zero_mul, Nat.zero_add]
    rw [if_pos h]

/-! ### Splitting facts -/

theorem splitOnceAux_of_not_mem (sep : Char) (cs : List Char) (h : sep ∉ cs) :
    splitOnceAux sep cs = none := by
  induction cs with
  | nil => rfl
  | cons c cs ih =>
    rw [List.mem_cons, not_or] at h
    rw [splitOnceAux, if_neg (fun hc => h.1 hc.symm), ih h.2]

theorem splitOnceAux_of_mem (sep : Char) (a b : List Char) (h : sep ∉ a) :
    splitOnceAux sep (a ++ sep :: b) = some (a, b) := by
  induction a with
  | nil => rw [List.nil_append, splitOnceAux, if_pos rfl]
  | cons c cs ih =>
    rw [List.mem_cons, not_or] at h
    rw [List.cons_append, splitOnceAux, if_neg (fun hc => h.1 hc.symm),
      ih h.2]

theorem splitN_one (sep : Char) (cs : List Char) : splitN sep 1 cs = [cs] := rfl

theorem splitN_no_sep (sep : Char) (n : Nat) (cs : List Char) (h : sep ∉ cs) :
    splitN sep (n + 2) cs = [cs] := by
  rw [splitN, splitOnceAux_of_not_mem sep cs h]

theorem splitN_toChars (id : EntityId) :
    splitN '.' 3 id.toChars =
      [natToDigits id.shard, natToDigits id.realm, natToDigits id.num] := by
  rw [EntityId.toChars]
  show splitN '.' (1 + 2) _ = _
  rw [splitN, splitOnceAux_of_mem '.' _ _ (dot_not_mem_natToDigits id.shard)]
  show _ :: splitN '.' (0 + 2) _ = _
  rw [splitN, splitOnceAux_of_mem '.' _ _ (dot_not_mem_natToDigits id.realm)]
  rfl

/-! ### C4/C5/C6: parse/format round trip, malformed input, bare integers -/

/-- **C4** For every `EntityId` (components are `u64`, hence below `2^64`),
parsing the canonical `shard.realm.num` text form produced by `Display`
yields the original identifier: `parse(format(id)) == id`. -/
theorem entity_id_roundtrip (id : EntityId)
    (h1 : id.shard < U64_MAX_SUCC) (h2 : id.realm < U64_MAX_SUCC)
    (h3 : id.num < U64_MAX_SUCC) :
    EntityId.fromStr id.format = Except.ok id := by
  rw [EntityId.fromStr, EntityId.format]
  show EntityId.fromStrChars id.toChars = _
  rw [EntityId.fromStrChars, splitN_toChars]
  rw [collectU64, u64FromStr_natToDigits _ h1,
    collectU64, u64FromStr_natToDigits _ h2,
    collectU64, u64FromStr_natToDigits _ h3, collectU64]
  rfl

/-- Witness for C4 at the concrete identifier `0.0.1001`. -/
theorem entity_id_roundtrip_witness :
    EntityId.fromStr (EntityId.format { shard := 0, realm := 0, num := 1001 }) =
      Except.ok { shard := 0, realm := 0, num := 1001 } :=
  entity_id_roundtrip { shard := 0, realm := 0, num := 1001 }
    (by decide) (by decide) (by decide)

theorem collectU64_length (l : List (List Char)) (v : List Nat)
    (h : collectU64 l = some v) : v.length = l.length := by
  induction l generalizing v with
  | nil =>
    rw [collectU64] at h
    cases h
    rfl
  | cons cs rest ih =>
    rw [collectU64] at h
    rcases hu : u64FromStr cs with _ | n
    · rw [hu] at h
      cases h
    · rw [hu] at h
      rcases hc : collectU64 rest with _ | w
      · rw [hc] at h
        cases h
      · rw [hc] at h
        cases h
        rw [List.length_cons, List.length_cons, ih w hc]

/-- **C5** Malformed identifier text — any input whose components do not all
parse as non-negative `u64` integers, or whose dotted form has exactly two
components — yields a parse error value, never an identifier (and, the
embedding being total, never a panic). -/
theorem entity_id_parse_malformed (cs : List Char)
    (h : collectU64 (splitN '.' 3 cs) = none ∨ (splitN '.' 3 cs).length = 2) :
    ∃ msg, EntityId.fromStrChars cs = Except.error (Error.basicParse msg) := by
  rw [EntityId.fromStrChars]
  rcases h with h | h
  · rw [h]
    exact ⟨_, rfl⟩
  · rcases hc : collectU64 (splitN '.' 3 cs) with _ | v
    · exact ⟨_, rfl⟩
    · have hv : v.length = 2 := by rw [collectU64_length _ v hc, h]
      rcases v with _ | ⟨a, _ | ⟨b, _ | ⟨c, w⟩⟩⟩ <;> simp at hv
      exact ⟨_, rfl⟩

/-- Witness for C5 at the spec's three concrete inputs `"1.2"`, `"a.b.c"`
and `""`: all three hypotheses are discharged by evaluation. -/
theorem entity_id_parse_malformed_witness :
    (∃ msg, EntityId.fromStrChars "1.2".data = Except.error (Error.basicParse msg)) ∧
    (∃ msg, EntityId.fromStrChars "a.b.c".data = Except.error (Error.basicParse msg)) ∧
    (∃ msg, EntityId.fromStrChars "".data = Except.error (Error.basicParse msg)) :=
  ⟨entity_id_parse_malformed "1.2".data (by decide),
   entity_id_parse_malformed "a.b.c".data (by decide),
   entity_id_parse_malformed "".data (by decide)⟩

/-- **C6** For every `u64` value `n`, parsing the bare decimal text form of
`n` yields exactly the identifier produced by `From<u64>`, namely
`(shard = 0, realm = 0, num = n)`. -/
theorem entity_id_bare_integer (n : Nat) (h : n < U64_MAX_SUCC) :
    EntityId.fromStrChars (natToDigits n) = Except.ok (EntityId.fromU64 n) ∧
    EntityId.fromU64 n = { shard := 0, realm := 0, num := n } := by
  refine ⟨?_, rfl⟩
  rw [EntityId.fromStrChars]
  have hsplit : splitN '.' 3 (natToDigits n) = [natToDigits n] := by
    show splitN '.' (1 + 2) _ = _
    exact splitN_no_sep '.' 1 _ (dot_not_mem_natToDigits n)
  rw [hsplit, collectU64, u64FromStr_natToDigits n h, collectU64]
  rfl

/-- Witness for C6 at the spec's shorthand example: `parse("1001")` is
`0.0.1001`. -/
theorem entity_id_bare_integer_witness :
    EntityId.fromStrChars (natToDigits 1001) = Except.ok (EntityId.fromU64 1001) ∧
    EntityId.fromU64 1001 = { shard := 0, realm := 0, num := 1001 } :=
  entity_id_bare_integer 1001 (by decide)

/-! ## Transaction builder (`transaction/mod.rs`, older `sdk/rust` layout) -/

/-- `AccountId` wraps the same `(shard, realm, num)` components as
`EntityId` (`account.rs`). -/
abbrev AccountId := EntityId

/-- `time::Duration`, modelled at second granularity: the only constructor
the embedded sources use is `Duration::seconds`. -/
structure Duration where
  secs : Int
deriving DecidableEq

/-- `Duration::seconds`. -/
def Duration.ofSeconds (s : Int) : Duration := { secs := s }

/-- `Hbar`: a currency amount in tinybars. -/
structure Hbar where
  tinybars : Int
deriving DecidableEq

/-- `TransactionId`: payer, valid-start timestamp (nanoseconds), scheduled
flag and nonce. -/
structure TransactionId where
  account_id : AccountId
  valid_start : Int
  scheduled : Bool
  nonce : Int
deriving DecidableEq

/-- A signing identity (`signer.rs`): either an owned private key or an
external callback bound to a public key.  Key material and callbacks are
opaque to the builder logic and modelled as numeric handles. -/
inductive Signer where
  | privateKey (key : Nat)
  | arbitrary (publicKey : Nat) (signerFn : Nat)
deriving DecidableEq

/-- `DEFAULT_TRANSACTION_VALID_DURATION: Duration = Duration::seconds(120)`. -/
def DEFAULT_TRANSACTION_VALID_DURATION : Duration := Duration.ofSeconds 120

/-- `TransactionBody<D>` from `transaction/mod.rs`. -/
structure TransactionBody (D : Type) where
  data : D
  node_account_ids : Option (List AccountId)
  transaction_valid_duration : Option Duration
  max_transaction_fee : Option Hbar
  transaction_memo : String
  payer_account_id : Option AccountId
  transaction_id : Option TransactionId
deriving DecidableEq

/-- `Transaction<D>`: a body plus the ordered signer collection. -/
structure Transaction (D : Type) where
  body : TransactionBody D
  signers : List Signer
deriving DecidableEq

/-- `Transaction::default` / `Transaction::new`: empty body around a default
payload, no signers. -/
def Transaction.new {D : Type} (d : D) : Transaction D :=
  { body :=
      { data := d
        node_account_ids := none
        transaction_valid_duration := none
        transaction_memo := ""
        max_transaction_fee := none
        payer_account_id := none
        transaction_id := none }
    signers := [] }

/-- `Transaction::node_account_ids` setter. -/
def Transaction.set_node_account_ids {D : Type} (t : Transaction D)
    (ids : List AccountId) : Transaction D :=
  { t with body := { t.body with node_account_ids := some ids } }

/-- `Transaction::transaction_valid_duration` setter. -/
def Transaction.set_transaction_valid_duration {D : Type} (t : Transaction D)
    (duration : Duration) : Transaction D :=
  { t with body := { t.body with transaction_valid_duration := some duration } }

/-- `Transaction::transaction_memo` setter: stores
`memo.as_ref().to_owned()` into the body. -/
def Transaction.set_transaction_memo {D : Type} (t : Transaction D)
    (memo : String) : Transaction D :=
  { t with body := { t.body with transaction_memo := memo } }

/-- `Transaction::sign_signer`: pushes the signer onto the collection. -/
def Transaction.sign_signer {D : Type} (t : Transaction D) (signer : Signer) :
    Transaction D :=
  { t with signers := t.signers ++ [signer] }

/-- `Transaction::sign`. -/
def Transaction.sign {D : Type} (t : Transaction D) (private_key : Nat) :
    Transaction D :=
  t.sign_signer (Signer.privateKey private_key)

/-- `Transaction::sign_with`. -/
def Transaction.sign_with {D : Type} (t : Transaction D) (public_key : Nat)
    (signer_fn : Nat) : Transaction D :=
  t.sign_signer (Signer.arbitrary public_key signer_fn)

/-- Modelled from the spec: the finalization step (`transaction/protobuf.rs`,
not among the sources here) uses the explicitly set valid duration and falls
back to `DEFAULT_TRANSACTION_VALID_DURATION` when the caller never set one
("valid-duration (default 120 seconds for transactions)"). -/
def TransactionBody.effectiveValidDuration {D : Type} (body : TransactionBody D) :
    Duration :=
  body.transaction_valid_duration.getD DEFAULT_TRANSACTION_VALID_DURATION

/-! ### C1: signing is *not* idempotent at the signer collection -/

/-- **C1 counterexample** Signing a fresh transaction twice with the same
private-key identity does not leave the stored signer collection equal to
the collection after one signature: `sign_signer` appends unconditionally,
so the second call stores a second entry. -/
theorem sign_twice_changes_signers_cex :
    ((Transaction.new ()).sign 7 |>.sign 7).signers ≠
      ((Transaction.new ()).sign 7).signers := by
  decide

/-- **C1 (amended)** Each `sign`/`sign_with`/`sign_signer` call appends its
signer to the transaction's stored collection unconditionally: signing twice
with the same identity stores two entries, with no per-(public key, node)
deduplication at sign time. -/
theorem sign_signer_appends {D : Type} (t : Transaction D) (s : Signer) :
    (t.sign_signer s).signers = t.signers ++ [s] ∧
    ((t.sign_signer s).sign_signer s).signers = t.signers ++ [s, s] ∧
    (t.sign (7 : Nat)).signers = t.signers ++ [Signer.privateKey 7] := by
  refine ⟨rfl, ?_, rfl⟩
  show (t.signers ++ [s]) ++ [s] = t.signers ++ [s, s]
  rw [List.append_assoc]
  rfl

/-! ### C7: the memo setter does not validate the length -/

/-- A memo of 101 characters, one above the documented 100-character cap. -/
def longMemo : String := String.mk (List.replicate 101 'a')

/-- **C7 counterexample** `Transaction::transaction_memo` stores an over-long
memo (101 characters) verbatim in the builder — it is not rejected at setter
time. -/
theorem transaction_memo_not_validated_cex :
    ((Transaction.new ()).set_transaction_memo longMemo).body.transaction_memo
        = longMemo ∧
      longMemo.length = 101 :=
  ⟨rfl, by decide⟩

/-- **C7 (amended)** The memo setter performs no eager validation: for every
transaction and every string, including strings longer than the documented
100-character maximum, the string is stored in the builder verbatim. -/
theorem transaction_memo_stores_verbatim {D : Type} (t : Transaction D)
    (memo : String) :
    (t.set_transaction_memo memo).body.transaction_memo = memo :=
  rfl

/-! ### C8: default valid duration -/

/-- **C8** A transaction whose valid-duration was never set uses the default
of 120 seconds at finalization time, and an explicit
`transaction_valid_duration` call replaces the default with the caller's
duration. -/
theorem transaction_valid_duration_default {D : Type} (d : D)
    (t : Transaction D) (dur : Duration) :
    (Transaction.new d).body.effectiveValidDuration = Duration.ofSeconds 120 ∧
    (t.set_transaction_valid_duration dur).body.effectiveValidDuration = dur :=
  ⟨rfl, rfl⟩

/-! ## Transfer transaction (`transfer_transaction.rs`) -/

/-- `TokenId`: same `(shard, realm, num)` shape as other entity ids. -/
structure TokenId where
  shard : Nat
  realm : Nat
  num : Nat
deriving DecidableEq

/-- `NftId`: a token id plus a serial number. -/
structure NftId where
  token_id : TokenId
  serial_number : Nat
deriving DecidableEq

/-- A fungible/hbar adjustment (`Transfer` in `transfer_transaction.rs`). -/
structure Transfer where
  account_id : AccountId
  amount : Int
  is_approval : Bool
deriving DecidableEq

/-- An NFT adjustment (`NftTransfer` in `transfer_transaction.rs`). -/
structure NftTransfer where
  sender_account_id : AccountId
  receiver_account_id : AccountId
  serial_number : Nat
  is_approval : Bool
deriving DecidableEq

/-- The per-token group (`TokenTransfer` in `transfer_transaction.rs`). -/
structure TokenTransfer where
  token_id : TokenId
  transfers : List Transfer
  nft_transfers : List NftTransfer
  expected_decimals : Option Nat
deriving DecidableEq

/-- `TransferTransactionData`. -/
structure TransferTransactionData where
  transfers : List Transfer
  token_transfers : List TokenTransfer
deriving DecidableEq

/-- `TransferTransactionData::default`. -/
def TransferTransactionData.new : TransferTransactionData :=
  { transfers := [], token_transfers := [] }

/-- The body of `TransferTransaction::_token_transfer` acting on the
`token_transfers` list: `iter_mut().find(..)` locates the first group with
the given token id and, when found, overwrites its `expected_decimals` and
appends the adjustment; otherwise a fresh group is pushed at the end. -/
def tokenTransferList (token_id : TokenId) (transfer : Transfer)
    (expected_decimals : Option Nat) : List TokenTransfer → List TokenTransfer
  | [] =>
    [{ token_id := token_id, expected_decimals := expected_decimals
       nft_transfers := [], transfers := [transfer] }]
  | tt :: rest =>
    if tt.token_id = token_id then
      { tt with
        expected_decimals := expected_decimals
        transfers := tt.transfers ++ [transfer] } :: rest
    else tt :: tokenTransferList token_id transfer expected_decimals rest

/-- The body of `TransferTransaction::_nft_transfer` acting on the
`token_transfers` list: the first group with the given token id gets the NFT
adjustment appended (its `expected_decimals` untouched); otherwise a fresh
group is pushed at the end. -/
def nftTransferList (token_id : TokenId) (transfer : NftTransfer) :
    List TokenTransfer → List TokenTransfer
  | [] =>
    [{ token_id := token_id, expected_decimals := none
       transfers := [], nft_transfers := [transfer] }]
  | tt :: rest =>
    if tt.token_id = token_id then
      { tt with nft_transfers := tt.nft_transfers ++ [transfer] } :: rest
    else tt :: nftTransferList token_id transfer rest

/-- `TransferTransaction::_token_transfer`. -/
def TransferTransactionData._token_transfer (d : TransferTransactionData)
    (token_id : TokenId) (account_id : AccountId) (amount : Int)
    (approved : Bool) (expected_decimals : Option Nat) :
    TransferTransactionData :=
  let transfer : Transfer :=
    { account_id := account_id, amount := amount, is_approval := approved }
  { d with token_transfers :=
      tokenTransferList token_id transfer expected_decimals d.token_transfers }

/-- `TransferTransaction::token_transfer`. -/
def TransferTransactionData.token_transfer (d : TransferTransactionData)
    (token_id : TokenId) (account_id : AccountId) (amount : Int) :
    TransferTransactionData :=
  d._token_transfer token_id account_id amount false none

/-- `TransferTransaction::approved_token_transfer`. -/
def TransferTransactionData.approved_token_transfer (d : TransferTransactionData)
    (token_id : TokenId) (account_id : AccountId) (amount : Int) :
    TransferTransactionData :=
  d._token_transfer token_id account_id amount true none

/-- `TransferTransaction::token_transfer_with_decimals`. -/
def TransferTransactionData.token_transfer_with_decimals
    (d : TransferTransactionData) (token_id : TokenId) (account_id : AccountId)
    (amount : Int) (expected_decimals : Nat) : TransferTransactionData :=
  d._token_transfer token_id account_id amount false (some expected_decimals)

/-- `TransferTransaction::approved_token_transfer_with_decimals`. -/
def TransferTransactionData.approved_token_transfer_with_decimals
    (d : TransferTransactionData) (token_id : TokenId) (account_id : AccountId)
    (amount : Int) (expected_decimals : Nat) : TransferTransactionData :=
  d._token_transfer token_id account_id amount true (some expected_decimals)

/-- `TransferTransaction::_nft_transfer`. -/
def TransferTransactionData._nft_transfer (d : TransferTransactionData)
    (nft_id : NftId) (sender_account_id receiver_account_id : AccountId)
    (approved : Bool) : TransferTransactionData :=
  let transfer : NftTransfer :=
    { serial_number := nft_id.serial_number
      sender_account_id := sender_account_id
      receiver_account_id := receiver_account_id
      is_approval := approved }
  { d with token_transfers :=
      nftTransferList nft_id.token_id transfer d.token_transfers }

/-- `TransferTransaction::nft_transfer`. -/
def TransferTransactionData.nft_transfer (d : TransferTransactionData)
    (nft_id : NftId) (sender_account_id receiver_account_id : AccountId) :
    TransferTransactionData :=
  d._nft_transfer nft_id sender_account_id receiver_account_id false

/-- `TransferTransaction::approved_nft_transfer`. -/
def TransferTransactionData.approved_nft_transfer (d : TransferTransactionData)
    (nft_id : NftId) (sender_account_id receiver_account_id : AccountId) :
    TransferTransactionData :=
  d._nft_transfer nft_id sender_account_id receiver_account_id true

/-- One public builder call of the transfer builder. -/
inductive TransferOp where
  | tokenTransfer (token_id : TokenId) (account_id : AccountId) (amount : Int)
  | approvedTokenTransfer (token_id : TokenId) (account_id : AccountId) (amount : Int)
  | tokenTransferWithDecimals (token_id : TokenId) (account_id : AccountId)
      (amount : Int) (expected_decimals : Nat)
  | approvedTokenTransferWithDecimals (token_id : TokenId) (account_id : AccountId)
      (amount : Int) (expected_decimals : Nat)
  | nftTransfer (nft_id : NftId) (sender receiver : AccountId)
  | approvedNftTransfer (nft_id : NftId) (sender receiver : AccountId)

/-- Apply one builder call. -/
def applyTransferOp (d : TransferTransactionData) : TransferOp → TransferTransactionData
  | .tokenTransfer tid a amt => d.token_transfer tid a amt
  | .approvedTokenTransfer tid a amt => d.approved_token_transfer tid a amt
  | .tokenTransferWithDecimals tid a amt ed => d.token_transfer_with_decimals tid a amt ed
  | .approvedTokenTransferWithDecimals tid a amt ed =>
      d.approved_token_transfer_with_decimals tid a amt ed
  | .nftTransfer nid s r => d.nft_transfer nid s r
  | .approvedNftTransfer nid s r => d.approved_nft_transfer nid s r

/-- Apply a whole sequence of builder calls, left to right. -/
def applyTransferOps (d : TransferTransactionData) (ops : List TransferOp) :
    TransferTransactionData :=
  ops.foldl applyTransferOp d

/-- `find` over the token groups, as `iter().find(..)` would locate a group. -/
def findToken (token_id : TokenId) (l : List TokenTransfer) : Option TokenTransfer :=
  l.find? (fun tt => tt.token_id == token_id)

theorem findToken_cons_of_ne (tid : TokenId) (tt : TokenTransfer)
    (rest : List TokenTransfer) (h : tt.token_id ≠ tid) :
    findToken tid (tt :: rest) = findToken tid rest := by
  unfold findToken
  rw [List.find?_cons_of_neg _ (by simp [h])]

theorem tokenTransferList_map_token_id (tid : TokenId) (tr : Transfer)
    (ed : Option Nat) (l : List TokenTransfer) :
    (tokenTransferList tid tr ed l).map TokenTransfer.token_id =
      if tid ∈ l.map TokenTransfer.token_id then l.map TokenTransfer.token_id
      else l.map TokenTransfer.token_id ++ [tid] := by
  induction l with
  | nil => simp [tokenTransferList]
  | cons tt rest ih =>
    by_cases h : tt.token_id = tid
    · simp [tokenTransferList, h]
    · rw [tokenTransferList, if_neg h, List.map_cons, ih, List.map_cons]
      by_cases hm : tid ∈ rest.map TokenTransfer.token_id
      · rw [if_pos hm, if_pos (List.mem_cons_of_mem _ hm)]
      · rw [if_neg hm, if_neg ?_, List.cons_append]
        rw [List.mem_cons]
        rintro (hc | hc)
        · exact h hc.symm
        · exact hm hc

theorem nftTransferList_map_token_id (tid : TokenId) (tr : NftTransfer)
    (l : List TokenTransfer) :
    (nftTransferList tid tr l).map TokenTransfer.token_id =
      if tid ∈ l.map TokenTransfer.token_id then l.map TokenTransfer.token_id
      else l.map TokenTransfer.token_id ++ [tid] := by
  induction l with
  | nil => simp [nftTransferList]
  | cons tt rest ih =>
    by_cases h : tt.token_id = tid
    · simp [nftTransferList, h]
    · rw [nftTransferList, if_neg h, List.map_cons, ih, List.map_cons]
      by_cases hm : tid ∈ rest.map TokenTransfer.token_id
      · rw [if_pos hm, if_pos (List.mem_cons_of_mem _ hm)]
      · rw [if_neg hm, if_neg ?_, List.cons_append]
        rw [List.mem_cons]
        rintro (hc | hc)
        · exact h hc.symm
        · exact hm hc

theorem nodup_update_token_ids (l : List TokenId) (tid : TokenId)
    (h : l.Nodup) :
    (if tid ∈ l then l else l ++ [tid]).Nodup := by
  by_cases hm : tid ∈ l
  · rw [if_pos hm]
    exact h
  · rw [if_neg hm, ← List.concat_eq_append]
    exact List.Nodup.concat hm h

theorem applyTransferOp_nodup (d : TransferTransactionData) (op : TransferOp)
    (h : (d.token_transfers.map TokenTransfer.token_id).Nodup) :
    ((applyTransferOp d op).token_transfers.map TokenTransfer.token_id).Nodup := by
  cases op <;>
    simp only [applyTransferOp, TransferTransactionData.token_transfer,
      TransferTransactionData.approved_token_transfer,
      TransferTransactionData.token_transfer_with_decimals,
      TransferTransactionData.approved_token_transfer_with_decimals,
      TransferTransactionData.nft_transfer,
      TransferTransactionData.approved_nft_transfer,
      TransferTransactionData._token_transfer,
      TransferTransactionData._nft_transfer,
      tokenTransferList_map_token_id, nftTransferList_map_token_id] <;>
    exact nodup_update_token_ids _ _ h

theorem applyTransferOps_nodup (ops : List TransferOp) (d : TransferTransactionData)
    (h : (d.token_transfers.map TokenTransfer.token_id).Nodup) :
    ((applyTransferOps d ops).token_transfers.map TokenTransfer.token_id).Nodup := by
  induction ops generalizing d with
  | nil => exact h
  | cons op ops ih => exact ih _ (applyTransferOp_nodup d op h)

theorem findToken_tokenTransferList (tid : TokenId) (tr : Transfer)
    (ed : Option Nat) (l : List TokenTransfer) :
    findToken tid (tokenTransferList tid tr ed l) =
      some (match findToken tid l with
        | some tt =>
          { tt with expected_decimals := ed, transfers := tt.transfers ++ [tr] }
        | none =>
          { token_id := tid, expected_decimals := ed, nft_transfers := []
            transfers := [tr] }) := by
  induction l with
  | nil => simp [tokenTransferList, findToken]
  | cons tt rest ih =>
    by_cases h : tt.token_id = tid
    · simp [tokenTransferList, findToken, h]
    · rw [tokenTransferList, if_neg h, findToken_cons_of_ne tid tt _ h,
        findToken_cons_of_ne tid tt rest h]
      exact ih

theorem findToken_nftTransferList (tid : TokenId) (tr : NftTransfer)
    (l : List TokenTransfer) :
    findToken tid (nftTransferList tid tr l) =
      some (match findToken tid l with
        | some tt => { tt with nft_transfers := tt.nft_transfers ++ [tr] }
        | none =>
          { token_id := tid, expected_decimals := none, transfers := []
            nft_transfers := [tr] }) := by
  induction l with
  | nil => simp [nftTransferList, findToken]
  | cons tt rest ih =>
    by_cases h : tt.token_id = tid
    · simp [nftTransferList, findToken, h]
    · rw [nftTransferList, if_neg h, findToken_cons_of_ne tid tt _ h,
        findToken_cons_of_ne tid tt rest h]
      exact ih

/-! ### C9: at most one token group per token id -/

/-- **C9** Starting from a fresh transfer builder, after any sequence of
`token_transfer` / `approved_token_transfer` / `*_with_decimals` /
`nft_transfer` / `approved_nft_transfer` calls the `token_transfers` list
holds at most one group per token id (its token ids are pairwise distinct).
Moreover a fungible adjustment for a token id merges into the existing group
when one exists — appending the adjustment and overwriting the group's
`expected_decimals` with the new call's value — and extends the id list by
the new token id exactly when no group existed; an NFT adjustment likewise
merges, appending to the group's `nft_transfers` and leaving its
`expected_decimals` untouched. -/
theorem transfer_token_groups_unique :
    (∀ ops : List TransferOp,
      (((applyTransferOps TransferTransactionData.new ops).token_transfers).map
        TokenTransfer.token_id).Nodup) ∧
    (∀ (d : TransferTransactionData) (tid : TokenId) (a : AccountId) (amt : Int)
        (app : Bool) (ed : Option Nat),
      ((d._token_transfer tid a amt app ed).token_transfers).map
          TokenTransfer.token_id =
        (if tid ∈ d.token_transfers.map TokenTransfer.token_id
          then d.token_transfers.map TokenTransfer.token_id
          else d.token_transfers.map TokenTransfer.token_id ++ [tid]) ∧
      findToken tid (d._token_transfer tid a amt app ed).token_transfers =
        some (match findToken tid d.token_transfers with
          | some tt =>
            { tt with expected_decimals := ed
                      transfers := tt.transfers ++
                        [{ account_id := a, amount := amt, is_approval := app }] }
          | none =>
            { token_id := tid, expected_decimals := ed, nft_transfers := []
              transfers := [{ account_id := a, amount := amt, is_approval := app }] })) ∧
    (∀ (d : TransferTransactionData) (nid : NftId) (s r : AccountId) (app : Bool),
      findToken nid.token_id (d._nft_transfer nid s r app).token_transfers =
        some (match findToken nid.token_id d.token_transfers with
          | some tt =>
            { tt with nft_transfers := tt.nft_transfers ++
                [{ serial_number := nid.serial_number, sender_account_id := s
                   receiver_account_id := r, is_approval := app }] }
          | none =>
            { token_id := nid.token_id, expected_decimals := none, transfers := []
              nft_transfers := [{ serial_number := nid.serial_number
                                  sender_account_id := s, receiver_account_id := r
                                  is_approval := app }] })) := by
  refine ⟨fun ops => applyTransferOps_nodup ops _ (by simp [TransferTransactionData.new]),
    fun d tid a amt app ed => ⟨?_, ?_⟩, fun d nid s r app => ?_⟩
  · exact tokenTransferList_map_token_id tid
      { account_id := a, amount := amt, is_approval := app } ed d.token_transfers
  · exact findToken_tokenTransferList tid
      { account_id := a, amount := amt, is_approval := app } ed d.token_transfers
  · exact findToken_nftTransferList nid.token_id
      { serial_number := nid.serial_number, sender_account_id := s
        receiver_account_id := r, is_approval := app } d.token_transfers

/-! ## Contract update transaction (`contract/contract_update_transaction.rs`)
and token pause transaction (`token/token_pause_transaction.rs`) -/

/-- `ContractId` carries the same components as other entity ids. -/
abbrev ContractId := EntityId

/-- `FileId` carries the same components as other entity ids. -/
abbrev FileId := EntityId

/-- A cryptographic `Key`; opaque to the builder logic, modelled as a
numeric handle. -/
structure Key where
  handle : Nat
deriving DecidableEq

/-- `time::OffsetDateTime`, modelled as a nanosecond timestamp. -/
structure OffsetDateTime where
  nanos : Int
deriving DecidableEq

/-- `StakedId` (`staked_id.rs`): either a staking-target account or a
staking-target node, never both. -/
inductive StakedId where
  | accountId (id : AccountId)
  | nodeId (id : Nat)
deriving DecidableEq

/-- Modelled from the spec: the `StakedId::to_account_id` accessor lives in
`staked_id.rs`, which is not among the sources; its behaviour is fixed by the
two-variant shape used in `contract_update_transaction.rs`. -/
def StakedId.to_account_id : StakedId → Option AccountId
  | .accountId id => some id
  | .nodeId _ => none

/-- Modelled from the spec: the `StakedId::to_node_id` accessor lives in
`staked_id.rs`, which is not among the sources; its behaviour is fixed by the
two-variant shape used in `contract_update_transaction.rs`. -/
def StakedId.to_node_id : StakedId → Option Nat
  | .accountId _ => none
  | .nodeId id => some id

/-- `impl From<AccountId> for StakedId` (from its use in
`staked_account_id`). -/
def StakedId.ofAccountId (id : AccountId) : StakedId := StakedId.accountId id

/-- `impl From<u64> for StakedId` (from its use in `staked_node_id`). -/
def StakedId.ofNodeId (id : Nat) : StakedId := StakedId.nodeId id

/-- `ContractUpdateTransactionData`. -/
structure ContractUpdateTransactionData where
  contract_id : Option ContractId
  expiration_time : Option OffsetDateTime
  admin_key : Option Key
  auto_renew_period : Option Duration
  contract_memo : Option String
  max_automatic_token_associations : Option Nat
  auto_renew_account_id : Option AccountId
  proxy_account_id : Option AccountId
  staked_id : Option StakedId
  decline_staking_reward : Option Bool
deriving DecidableEq

/-- `ContractUpdateTransactionData::default`. -/
def ContractUpdateTransactionData.new : ContractUpdateTransactionData :=
  { contract_id := none, expiration_time := none, admin_key := none
    auto_renew_period := none, contract_memo := none
    max_automatic_token_associations := none, auto_renew_account_id := none
    proxy_account_id := none, staked_id := none, decline_staking_reward := none }

/-- `ContractUpdateTransaction` = `Transaction<ContractUpdateTransactionData>`. -/
abbrev ContractUpdateTransaction := Transaction ContractUpdateTransactionData

/-- `ContractUpdateTransaction::get_staked_account_id`:
`self.data().staked_id.and_then(StakedId::to_account_id)`. -/
def ContractUpdateTransaction.get_staked_account_id
    (t : ContractUpdateTransaction) : Option AccountId :=
  t.body.data.staked_id.bind StakedId.to_account_id

/-- `ContractUpdateTransaction::staked_account_id` setter:
`self.data_mut().staked_id = Some(id.into())`. -/
def ContractUpdateTransaction.staked_account_id (t : ContractUpdateTransaction)
    (id : AccountId) : ContractUpdateTransaction :=
  { t with body := { t.body with
      data := { t.body.data with staked_id := some (StakedId.ofAccountId id) } } }

/-- `ContractUpdateTransaction::get_staked_node_id`:
`self.data().staked_id.and_then(StakedId::to_node_id)`. -/
def ContractUpdateTransaction.get_staked_node_id
    (t : ContractUpdateTransaction) : Option Nat :=
  t.body.data.staked_id.bind StakedId.to_node_id

/-- `ContractUpdateTransaction::staked_node_id` setter:
`self.data_mut().staked_id = Some(id.into())`. -/
def ContractUpdateTransaction.staked_node_id (t : ContractUpdateTransaction)
    (id : Nat) : ContractUpdateTransaction :=
  { t with body := { t.body with
      data := { t.body.data with staked_id := some (StakedId.ofNodeId id) } } }

/-! ### C10: staking targets are mutually exclusive -/

/-- One staking setter call. -/
inductive StakeOp where
  | account (id : AccountId)
  | node (id : Nat)

/-- Apply one staking setter. -/
def applyStakeOp (t : ContractUpdateTransaction) : StakeOp → ContractUpdateTransaction
  | .account id => t.staked_account_id id
  | .node id => t.staked_node_id id

/-- Apply a sequence of staking setters, left to right. -/
def applyStakeOps (t : ContractUpdateTransaction) (ops : List StakeOp) :
    ContractUpdateTransaction :=
  ops.foldl applyStakeOp t

/-- **C10** After any sequence of `staked_account_id` / `staked_node_id`
setter calls (indeed in every reachable builder state, since both share the
single `staked_id` field) at most one of `get_staked_account_id` and
`get_staked_node_id` returns `Some`; each setter overwrites the other
target, so the last setter wins. -/
theorem staked_id_mutually_exclusive :
    (∀ (t : ContractUpdateTransaction) (ops : List StakeOp),
      (applyStakeOps t ops).get_staked_account_id = none ∨
        (applyStakeOps t ops).get_staked_node_id = none) ∧
    (∀ (t : ContractUpdateTransaction) (id : AccountId),
      (t.staked_account_id id).get_staked_account_id = some id ∧
        (t.staked_account_id id).get_staked_node_id = none) ∧
    (∀ (t : ContractUpdateTransaction) (id : Nat),
      (t.staked_node_id id).get_staked_node_id = some id ∧
        (t.staked_node_id id).get_staked_account_id = none) := by
  refine ⟨fun t ops => ?_, fun t id => ⟨rfl, rfl⟩, fun t id => ⟨rfl, rfl⟩⟩
  rcases h : (applyStakeOps t ops).body.data.staked_id with _ | ⟨id⟩ | ⟨id⟩
  · left
    rw [ContractUpdateTransaction.get_staked_account_id, h]
    rfl
  · right
    rw [ContractUpdateTransaction.get_staked_node_id, h]
    rfl
  · left
    rw [ContractUpdateTransaction.get_staked_account_id, h]
    rfl

/-! ### Wire bodies and chunking (C2) -/

/-- Two's-complement cast `u64 as i64` used for the staked node id in
`to_protobuf`. -/
def i64OfU64 (n : Nat) : Int :=
  if n < 2 ^ 63 then (n : Int) else (n : Int) - 2 ^ 64

/-- Two's-complement cast `u32 as i32` used for
`max_automatic_token_associations` in `to_protobuf`. -/
def i32OfU32 (n : Nat) : Int :=
  if n < 2 ^ 31 then (n : Int) else (n : Int) - 2 ^ 32

/-- The `staked_id` oneof of `services::ContractUpdateTransactionBody`. -/
inductive ContractUpdateStakedIdProto where
  | stakedNodeId (id : Int)
  | stakedAccountId (id : AccountId)
deriving DecidableEq

/-- The `memo_field` oneof of `services::ContractUpdateTransactionBody`. -/
inductive MemoField where
  | memo (value : String)
  | memoWrapper (value : String)
deriving DecidableEq

/-- `services::ContractUpdateTransactionBody`. -/
structure ContractUpdateTransactionBody where
  contract_id : Option ContractId
  expiration_time : Option OffsetDateTime
  admin_key : Option Key
  proxy_account_id : Option AccountId
  auto_renew_period : Option Duration
  max_automatic_token_associations : Option Int
  auto_renew_account_id : Option AccountId
  decline_reward : Option Bool
  staked_id : Option ContractUpdateStakedIdProto
  file_id : Option FileId
  memo_field : Option MemoField
deriving DecidableEq

/-- `impl ToProtobuf for ContractUpdateTransactionData`. -/
def ContractUpdateTransactionData.to_protobuf
    (d : ContractUpdateTransactionData) : ContractUpdateTransactionBody :=
  { contract_id := d.contract_id
    expiration_time := d.expiration_time
    admin_key := d.admin_key
    proxy_account_id := d.proxy_account_id
    auto_renew_period := d.auto_renew_period
    max_automatic_token_associations :=
      d.max_automatic_token_associations.map i32OfU32
    auto_renew_account_id := d.auto_renew_account_id
    decline_reward := d.decline_staking_reward
    staked_id := d.staked_id.map (fun id =>
      match id with
      | StakedId.nodeId id => ContractUpdateStakedIdProto.stakedNodeId (i64OfU64 id)
      | StakedId.accountId id => ContractUpdateStakedIdProto.stakedAccountId id)
    file_id := none
    memo_field := d.contract_memo.map MemoField.memoWrapper }

/-- `TokenPauseTransactionData`. -/
structure TokenPauseTransactionData where
  token_id : Option TokenId
deriving DecidableEq

/-- `services::TokenPauseTransactionBody`. -/
structure TokenPauseTransactionBody where
  token : Option TokenId
deriving DecidableEq

/-- `impl ToProtobuf for TokenPauseTransactionData`. -/
def TokenPauseTransactionData.to_protobuf (d : TokenPauseTransactionData) :
    TokenPauseTransactionBody :=
  { token := d.token_id }

/-- The `services::transaction_body::Data` oneof, restricted to the payload
kinds among the sources. -/
inductive TransactionDataProto where
  | contractUpdateInstance (body : ContractUpdateTransactionBody)
  | tokenPause (body : TokenPauseTransactionBody)
deriving DecidableEq

/-- Modelled from the spec: `ChunkInfo` (in `transaction/chunked.rs`, not
among the sources) describes one chunk of a possibly-chunked transaction:
its index, the total chunk count, and the per-chunk/node identifiers. -/
structure ChunkInfo where
  current : Nat
  total : Nat
  initial_transaction_id : TransactionId
  current_transaction_id : TransactionId
  node_account_id : AccountId
deriving DecidableEq

/-- Modelled from the spec: `ChunkInfo::assert_single_transaction` (in
`transaction/chunked.rs`, not among the sources) asserts that the chunk info
describes a single, initial transaction — "a type that is inherently
single-chunk must fail fast if an attempt is made to chunk it".  The Rust
assertion panic is modelled as `Except.error`. -/
def ChunkInfo.assert_single_transaction (ci : ChunkInfo) :
    Except String (TransactionId × AccountId) :=
  if ci.current = 0 ∧ ci.total = 1 then
    Except.ok (ci.current_transaction_id, ci.node_account_id)
  else
    Except.error "chunking is not supported by this transaction type"

/-- `impl ToTransactionDataProtobuf for ContractUpdateTransactionData`: the
`let _ =` discards `assert_single_transaction`'s value but not its panic, so
the body is produced only for a single-chunk `ChunkInfo`. -/
def ContractUpdateTransactionData.to_transaction_data_protobuf
    (d : ContractUpdateTransactionData) (chunk_info : ChunkInfo) :
    Except String TransactionDataProto :=
  match chunk_info.assert_single_transaction with
  | Except.error e => Except.error e
  | Except.ok _ =>
    Except.ok (TransactionDataProto.contractUpdateInstance d.to_protobuf)

/-- `impl ToTransactionDataProtobuf for TokenPauseTransactionData`: same
fail-fast shape as the contract update payload. -/
def TokenPauseTransactionData.to_transaction_data_protobuf
    (d : TokenPauseTransactionData) (chunk_info : ChunkInfo) :
    Except String TransactionDataProto :=
  match chunk_info.assert_single_transaction with
  | Except.error e => Except.error e
  | Except.ok _ => Except.ok (TransactionDataProto.tokenPause d.to_protobuf)

/-- **C2** For the single-chunk-only payload types
(`ContractUpdateTransactionData` and `TokenPauseTransactionData`), building
the wire body against a `ChunkInfo` describing more than one chunk, or a
non-initial chunk, fails fast with an error instead of silently producing a
body. -/
theorem single_chunk_types_fail_fast (ci : ChunkInfo)
    (h : 1 < ci.total ∨ ci.current ≠ 0) :
    (∀ d : ContractUpdateTransactionData,
      d.to_transaction_data_protobuf ci =
        Except.error "chunking is not supported by this transaction type") ∧
    (∀ d : TokenPauseTransactionData,
      d.to_transaction_data_protobuf ci =
        Except.error "chunking is not supported by this transaction type") := by
  have hassert : ci.assert_single_transaction =
      Except.error "chunking is not supported by this transaction type" := by
    rw [ChunkInfo.assert_single_transaction, if_neg]
    omega
  constructor
  · intro d
    rw [ContractUpdateTransactionData.to_transaction_data_protobuf, hassert]
  · intro d
    rw [TokenPauseTransactionData.to_transaction_data_protobuf, hassert]

/-- A concrete transaction id for witnesses. -/
def witnessTransactionId : TransactionId :=
  { account_id := { shard := 0, realm := 0, num := 6189 }
    valid_start := 1, scheduled := false, nonce := 0 }

/-- A concrete two-chunk `ChunkInfo` for witnesses. -/
def witnessChunkInfo : ChunkInfo :=
  { current := 0, total := 2
    initial_transaction_id := witnessTransactionId
    current_transaction_id := witnessTransactionId
    node_account_id := { shard := 0, realm := 0, num := 3 } }

/-- Witness for C2 at a concrete two-chunk `ChunkInfo` and concrete default
payloads. -/
theorem single_chunk_types_fail_fast_witness :
    ContractUpdateTransactionData.new.to_transaction_data_protobuf
        witnessChunkInfo =
      Except.error "chunking is not supported by this transaction type" ∧
    ({ token_id := none } : TokenPauseTransactionData).to_transaction_data_protobuf
        witnessChunkInfo =
      Except.error "chunking is not supported by this transaction type" :=
  ⟨(single_chunk_types_fail_fast witnessChunkInfo (by decide)).1
      ContractUpdateTransactionData.new,
    (single_chunk_types_fail_fast witnessChunkInfo (by decide)).2
      { token_id := none }⟩

/-! ## Cost-estimation query (`query/cost.rs`) -/

/-- `services::ResponseType`. -/
inductive ResponseType where
  | answerOnly
  | answerStateProof
  | costAnswer
  | costAnswerStateProof
deriving DecidableEq

/-- The protobuf `as i32` value of a `ResponseType`. -/
def ResponseType.toI32 : ResponseType → Int
  | .answerOnly => 0
  | .answerStateProof => 1
  | .costAnswer => 2
  | .costAnswerStateProof => 3

/-- A serialized payment transaction (`services::Transaction`), opaque to the
cost query. -/
structure ProtoTransaction where
  signed_transaction_bytes : List Nat
deriving DecidableEq

/-- `services::QueryHeader`: the response type requested plus an optional
attached payment. -/
structure QueryHeader where
  response_type : Int
  payment : Option ProtoTransaction
deriving DecidableEq

/-- `services::ResponseHeader`: the shared header every response envelope
carries — precheck status, echoed response type, and the cost. -/
structure ResponseHeader where
  node_transaction_precheck_code : Int
  response_type : Int
  cost : Nat
deriving DecidableEq

/-- The `services::response::Response` oneof: heterogeneous envelope
variants, each carrying the shared header (three representative variants). -/
inductive ResponseInner where
  | cryptogetAccountBalance (header : Option ResponseHeader)
  | transactionGetReceipt (header : Option ResponseHeader)
  | contractCallLocal (header : Option ResponseHeader)
deriving DecidableEq

/-- The header field of whichever variant the envelope holds. -/
def ResponseInner.headerField : ResponseInner → Option ResponseHeader
  | .cryptogetAccountBalance h => h
  | .transactionGetReceipt h => h
  | .contractCallLocal h => h

/-- Modelled from the spec: `response_header` (in `query/execute.rs`, not
among the sources) is the "single shared routine [that] extracts the status
header from heterogeneous response message shapes", erroring when the
envelope or its header is missing. -/
def response_header : Option ResponseInner → Except Error ResponseHeader
  | none => Except.error (Error.fromProtobuf "unexpected missing `header`")
  | some inner =>
    match inner.headerField with
    | none => Except.error (Error.fromProtobuf "unexpected missing `header`")
    | some h => Except.ok h

/-- `services::Response`: an optional envelope. -/
structure Response where
  response : Option ResponseInner
deriving DecidableEq

/-- `Query<D>` (`query/mod.rs`, not among the sources beyond its use in
`cost.rs`): the payload plus the per-query node restriction — the only parts
`QueryCost` reads. -/
structure Query (D : Type) where
  data : D
  node_account_ids : Option (List AccountId)

/-- `QueryCost<'a, D>`: a thin wrapper borrowing a query. -/
structure QueryCost (D : Type) where
  query : Query D

/-- `QueryCost`'s `Execute::requires_transaction_id`: always `false`. -/
def QueryCost.requires_transaction_id : Bool := false

/-- `QueryCost`'s `Execute::transaction_id`: always `None`. -/
def QueryCost.transaction_id {D : Type} (_q : QueryCost D) :
    Option TransactionId :=
  none

/-- `QueryCost`'s `Execute::node_account_ids`: delegates to the wrapped
query. -/
def QueryCost.node_account_ids {D : Type} (q : QueryCost D) :
    Option (List AccountId) :=
  q.query.node_account_ids

/-- `QueryCost`'s `Execute::make_request`: builds a header whose response
type is `CostAnswer` and whose payment is `None`, and hands it to the
payload's `to_query_protobuf` (the `ToQueryProtobuf` capability, passed here
as a function).  The dispatcher context is `()`. -/
def QueryCost.make_request {D Q : Type} (to_query_protobuf : D → QueryHeader → Q)
    (q : QueryCost D) (_transaction_id : Option TransactionId)
    (_node_account_id : AccountId) : Except Error (Q × Unit) :=
  let header : QueryHeader :=
    { response_type := ResponseType.toI32 ResponseType.costAnswer
      payment := none }
  Except.ok (to_query_protobuf q.query.data header, ())

/-- `QueryCost`'s `Execute::make_response`:
`Ok(response_header(&response.response)?.cost)`. -/
def QueryCost.make_response (response : Response) (_context : Unit)
    (_node_account_id : AccountId) (_transaction_id : Option TransactionId) :
    Except Error Nat :=
  match response_header response.response with
  | Except.ok header => Except.ok header.cost
  | Except.error e => Except.error e

/-- `QueryCost`'s `Execute::response_pre_check_status`. -/
def QueryCost.response_pre_check_status (response : Response) :
    Except Error Int :=
  match response_header response.response with
  | Except.ok header => Except.ok header.node_transaction_precheck_code
  | Except.error e => Except.error e

/-! ### C3: the cost-estimation wrapper's dispatcher contract -/

/-- **C3** The cost-estimation wrapper declares that it requires no
transaction id (`requires_transaction_id` is `false` and `transaction_id` is
`None`), builds every per-node request by handing the payload a header whose
response type is the cost-answer variant with no payment attached, and
shapes the final result as the unsigned cost value taken from the response
header. -/
theorem query_cost_contract :
    QueryCost.requires_transaction_id = false ∧
    (∀ (D : Type) (q : QueryCost D), q.transaction_id = none) ∧
    (∀ (D Q : Type) (to_query_protobuf : D → QueryHeader → Q) (q : QueryCost D)
        (tid : Option TransactionId) (node : AccountId),
      QueryCost.make_request to_query_protobuf q tid node =
        Except.ok (to_query_protobuf q.query.data
          { response_type := ResponseType.toI32 ResponseType.costAnswer
            payment := none }, ())) ∧
    (∀ (resp : Response) (ctx : Unit) (node : AccountId)
        (tid : Option TransactionId) (h : ResponseHeader),
      response_header resp.response = Except.ok h →
        QueryCost.make_response resp ctx node tid = Except.ok h.cost) := by
  refine ⟨rfl, fun D q => rfl, fun D Q tqp q tid node => rfl,
    fun resp ctx node tid h hh => ?_⟩
  rw [QueryCost.make_response, hh]

/-- Witness for C3 at a concrete response whose header carries cost 42. -/
theorem query_cost_contract_witness :
    QueryCost.make_response
      { response :=
          some (ResponseInner.cryptogetAccountBalance
            (some { node_transaction_precheck_code := 0, response_type := 2
                    cost := 42 })) }
      () { shard := 0, realm := 0, num := 3 } none = Except.ok 42 :=
  query_cost_contract.2.2.2 _ () _ none
    { node_transaction_precheck_code := 0, response_type := 2, cost := 42 } rfl

end Hedera
